import Mathlib

/-!
Shallow embedding of `docs/tutorials/01_gaussian_amortized.ipynb`.

The notebook defines a 3-dimensional linear-Gaussian toy problem:
a `BoxUniform` prior on `[-2, 2]^3`, a simulator
`theta + 1.0 + torch.randn_like(theta) * 0.1`, and then delegates data
generation (`simulate_for_sbi`), input validation (`check_sbi_inputs`),
training (`NPE`) and posterior sampling (`posterior.sample`) to the sbi
library, whose code is not under `src/`.  Tensors are embedded as lists of
rationals; Gaussian draws are made explicit inputs (or are read from an
explicit pseudo-random generator state when the threading of torch's
global generator matters).  Library operations that the notebook only
calls are modelled from the spec, each marked `Modelled from the spec:`.
-/

set_option maxRecDepth 8000

namespace GaussianAmortized

/-- The notebook's `num_dim = 3`: dimension of the parameter vector θ. -/
def num_dim : Nat := 3

/-- Torch broadcasting of `theta + 1.0`: add a scalar to every coordinate. -/
def addScalar (t : List ℚ) (c : ℚ) : List ℚ := t.map (fun a => a + c)

/-- Torch broadcasting of `tensor * 0.1`: multiply every coordinate by a scalar. -/
def mulScalar (t : List ℚ) (c : ℚ) : List ℚ := t.map (fun a => a * c)

/-- Torch `+` on two same-shape tensors: elementwise addition. -/
def addT (a b : List ℚ) : List ℚ := List.zipWith (fun x y => x + y) a b

/-- The notebook's simulator on one parameter vector, with the Gaussian draw
`randn_like(theta)` made an explicit argument `eps`:
`theta + 1.0 + randn_like(theta) * 0.1`. -/
def simulator (theta eps : List ℚ) : List ℚ :=
  addT (addScalar theta 1) (mulScalar eps (1/10))

/-- The simulator applied to a batch of parameter vectors with a matching batch
of per-row noise draws (torch operations act elementwise over the batch). -/
def simulatorBatch (thetas epss : List (List ℚ)) : List (List ℚ) :=
  List.zipWith simulator thetas epss

/-- Modelled from the spec: `utils.BoxUniform` (sbi library, not under `src/`):
an independent uniform distribution per coordinate, described by its bounds. -/
structure BoxUniform where
  low : List ℚ
  high : List ℚ

/-- Modelled from the spec: drawing one θ from a `BoxUniform`, with the
per-coordinate unit-uniform draws `u : Nat → ℚ` made explicit inputs:
coordinate `j` is `low_j + (high_j - low_j) * u j`. -/
def BoxUniform.sampleOne (p : BoxUniform) (u : Nat → ℚ) : List ℚ :=
  (List.range p.low.length).map
    (fun j => p.low.getD j 0 + (p.high.getD j 0 - p.low.getD j 0) * u j)

/-- Modelled from the spec: `prior.sample((n,))` drawing a batch of `n`
independent θ vectors, row `i` using the unit-uniform draws `u i`. -/
def BoxUniform.sample (p : BoxUniform) (n : Nat) (u : Nat → Nat → ℚ) :
    List (List ℚ) :=
  (List.range n).map (fun i => p.sampleOne (u i))

/-- The notebook's prior:
`BoxUniform(low=-2 * torch.ones(num_dim), high=2 * torch.ones(num_dim))`. -/
def prior : BoxUniform :=
  { low := List.replicate num_dim (-2), high := List.replicate num_dim 2 }

/-- A linear congruential step standing in for torch's global pseudo-random
generator state transition. -/
def lcgNext (s : Nat) : Nat := (1103515245 * s + 12345) % 2147483648

/-- A fixed deterministic read-out of one standard-normal draw from the
generator state (any pure function of the state models a seeded draw). -/
def normalDraw (s : Nat) : ℚ := ((s % 201 : Nat) : ℚ) / 100 - 1

/-- Modelled from the spec: `torch.randn_like` on a length-`n` tensor, drawing
`n` values while threading the generator state. -/
def randn_like (n : Nat) (s : Nat) : List ℚ × Nat :=
  match n with
  | 0 => ([], s)
  | Nat.succ m =>
    let s1 := lcgNext s
    let r := randn_like m s1
    (normalDraw s1 :: r.1, r.2)

/-- The simulator as the notebook actually runs it: the Gaussian noise is
drawn from the current generator state, which the call advances. -/
def simulatorRun (theta : List ℚ) (s : Nat) : List ℚ × Nat :=
  (simulator theta (randn_like theta.length s).1, (randn_like theta.length s).2)

/-- One row of explicit standard-normal draws for the simulation loop. -/
def epsRow (eps : Nat → Nat → ℚ) (i len : Nat) : List ℚ :=
  (List.range len).map (eps i)

/-- Modelled from the spec: `simulate_for_sbi(simulator, proposal=prior,
num_simulations)` (sbi library, not under `src/`): draw `num_simulations`
parameters from the proposal, run the simulator on each with its own noise
row, and return both batches. -/
def simulate_for_sbi (proposal : BoxUniform) (numSim : Nat)
    (u eps : Nat → Nat → ℚ) : List (List ℚ) × List (List ℚ) :=
  (proposal.sample numSim u,
   (List.range numSim).map (fun i =>
     simulator ((proposal.sample numSim u).getD i [])
       (epsRow eps i ((proposal.sample numSim u).getD i []).length)))

/-- The training set the notebook fits on: the ordered (θ, x) pairs returned
by `simulate_for_sbi`. -/
def trainingSet (proposal : BoxUniform) (numSim : Nat)
    (u eps : Nat → Nat → ℚ) : List (List ℚ × List ℚ) :=
  (simulate_for_sbi proposal numSim u eps).1.zip
    (simulate_for_sbi proposal numSim u eps).2

/-- The error message the consistency check raises with. -/
def mismatchMsg : String := "simulator output is inconsistent with the prior"

/-- Modelled from the spec: `check_sbi_inputs(simulator, prior)` (sbi library,
not under `src/`): probe the simulator once on a point of the prior's
parameter space and confirm the output is compatible with that space (same
dimensionality); on failure it raises, modelled as `Except.error`. -/
def check_sbi_inputs (sim : List ℚ → List ℚ) (p : BoxUniform) :
    Except String Unit :=
  if (sim p.low).length = p.low.length then Except.ok ()
  else Except.error mismatchMsg

/-- Modelled from the spec: the notebook's validate-then-simulate sequence:
`check_sbi_inputs` runs first and a failure propagates immediately, before
any training pair is generated; only on success is the training set built. -/
def pipeline (probeSim : List ℚ → List ℚ) (p : BoxUniform) (numSim : Nat)
    (u eps : Nat → Nat → ℚ) : Except String (List (List ℚ × List ℚ)) :=
  match check_sbi_inputs probeSim p with
  | Except.error msg => Except.error msg
  | Except.ok _ => Except.ok (trainingSet p numSim u eps)

/-- Modelled from the spec: the fitted amortized posterior object returned by
`build_posterior`; its sampling routine is a fixed function of the
conditioning observation, the requested count and the generator state. -/
structure Posterior where
  sampleFun : List ℚ → Nat → Nat → List (List ℚ)

/-- Modelled from the spec: the notebook session after training: the training
data, the fitted posterior and torch's generator state. -/
structure SBIState where
  data : List (List ℚ × List ℚ)
  posterior : Posterior
  rng : Nat

/-- Modelled from the spec: `posterior.sample((n,), x=x_obs)`: draw `n`
posterior samples conditioned on `x`, advancing only the generator state. -/
def posteriorSampleCall (st : SBIState) (n : Nat) (x : List ℚ) :
    List (List ℚ) × SBIState :=
  (st.posterior.sampleFun x n st.rng, { st with rng := lcgNext st.rng })

/-- Modelled from the spec: the squared-distance score of a candidate θ
against an observation x under the simulator's noiseless response; on the
uniform prior region the exact posterior density is a strictly decreasing
function of this score, so mass concentrates where the score is smallest. -/
def posteriorScore (x theta : List ℚ) : ℚ :=
  (List.zipWith (fun a b => (a - b) ^ 2) x
    (simulator theta (List.replicate theta.length 0))).sum

section Helpers

variable {α β γ : Type}

lemma getD_zipWith (f : α → β → γ) (a : List α) (b : List β)
    (da : α) (db : β) (dc : γ) (i : Nat) (ha : i < a.length) (hb : i < b.length) :
    (List.zipWith f a b).getD i dc = f (a.getD i da) (b.getD i db) := by
  have hlen : i < (List.zipWith f a b).length := by
    simpa [List.length_zipWith] using And.intro ha hb
  rw [List.getD_eq_getElem _ _ hlen, List.getD_eq_getElem _ _ ha,
    List.getD_eq_getElem _ _ hb, List.getElem_zipWith]

lemma getD_map (f : α → β) (a : List α) (da : α) (db : β) (i : Nat)
    (ha : i < a.length) :
    (a.map f).getD i db = f (a.getD i da) := by
  have hlen : i < (a.map f).length := by simpa using ha
  rw [List.getD_eq_getElem _ _ hlen, List.getD_eq_getElem _ _ ha, List.getElem_map]

lemma getD_range_map (f : Nat → α) (d : α) (n i : Nat) (h : i < n) :
    ((List.range n).map f).getD i d = f i := by
  have hr : i < (List.range n).length := by simpa using h
  rw [getD_map f _ 0 d i hr, List.getD_eq_getElem _ _ hr, List.getElem_range]

lemma getD_zip (a : List α) (b : List β) (da : α) (db : β) (i : Nat)
    (ha : i < a.length) (hb : i < b.length) :
    (a.zip b).getD i (da, db) = (a.getD i da, b.getD i db) := by
  simpa [List.zip] using
    getD_zipWith (fun x y => (x, y)) a b da db (da, db) i ha hb

/-- Length of the simulator output for one parameter vector. -/
lemma simulator_length (theta eps : List ℚ) (h : eps.length = theta.length) :
    (simulator theta eps).length = theta.length := by
  simp [simulator, addT, addScalar, mulScalar, List.length_zipWith, h]

/-- Coordinate `i` of the simulator output. -/
lemma simulator_getD (theta eps : List ℚ) (i : Nat)
    (hlen : eps.length = theta.length) (hi : i < theta.length) :
    (simulator theta eps).getD i 0 = theta.getD i 0 + 1 + eps.getD i 0 * (1/10) := by
  have he : i < eps.length := by omega
  have h1 : i < (addScalar theta 1).length := by simpa [addScalar] using hi
  have h2 : i < (mulScalar eps (1/10)).length := by simpa [mulScalar] using he
  rw [simulator, addT, getD_zipWith _ _ _ 0 0 0 i h1 h2,
    addScalar, getD_map _ _ 0 0 i hi, mulScalar, getD_map _ _ 0 0 i he]

lemma addT_getD (a b : List ℚ) (i : Nat) (ha : i < a.length) (hb : i < b.length) :
    (addT a b).getD i 0 = a.getD i 0 + b.getD i 0 := by
  rw [addT]; exact getD_zipWith (fun x y => x + y) a b 0 0 0 i ha hb

lemma sampleOne_length (p : BoxUniform) (u : Nat → ℚ) :
    (p.sampleOne u).length = p.low.length := by
  simp [BoxUniform.sampleOne]

lemma sample_length (p : BoxUniform) (n : Nat) (u : Nat → Nat → ℚ) :
    (p.sample n u).length = n := by
  simp [BoxUniform.sample]

lemma sample_getD (p : BoxUniform) (n : Nat) (u : Nat → Nat → ℚ) (i : Nat)
    (h : i < n) :
    (p.sample n u).getD i [] = p.sampleOne (u i) := by
  simpa [BoxUniform.sample] using
    getD_range_map (fun i => p.sampleOne (u i)) [] n i h

lemma randn_like_one (s : Nat) :
    randn_like 1 s = ([normalDraw (lcgNext s)], lcgNext s) := rfl

lemma simulatorRun_single (t : ℚ) (s : Nat) :
    simulatorRun [t] s
      = ([t + 1 + normalDraw (lcgNext s) * (1/10)], lcgNext s) := rfl

lemma prior_sampleOne_getD (u : Nat → ℚ) (j : Nat) (hj : j < num_dim) :
    (prior.sampleOne u).getD j 0 = -2 + 4 * u j := by
  have h3 : j < 3 := hj
  rw [BoxUniform.sampleOne]
  rw [getD_range_map _ 0 _ j (by simpa [prior, num_dim] using hj)]
  interval_cases j <;> (norm_num [prior, num_dim]; try ring)

end Helpers

/-- C1: with the Gaussian draw ε treated as an input, every coordinate of the
simulator output equals the corresponding coordinate of θ, plus 1.0, plus
0.1 times the corresponding coordinate of ε. -/
theorem simulator_is_theta_plus_one_plus_scaled_noise
    (theta eps : List ℚ) (i : Nat)
    (hlen : eps.length = theta.length) (hi : i < theta.length) :
    (simulator theta eps).getD i 0
      = theta.getD i 0 + 1 + (1/10) * eps.getD i 0 := by
  rw [simulator_getD theta eps i hlen hi]; ring

/-- Witness for C1 at θ = [2, -1, 1/2], ε = [1, 0, -3]. -/
theorem simulator_is_theta_plus_one_plus_scaled_noise_witness :
    (simulator [2, -1, 1/2] [1, 0, -3]).getD 1 0
      = ([2, -1, (1/2 : ℚ)]).getD 1 0 + 1 + (1/10) * ([1, 0, (-3 : ℚ)]).getD 1 0 :=
  simulator_is_theta_plus_one_plus_scaled_noise [2, -1, 1/2] [1, 0, -3] 1
    (by decide) (by decide)

/-- C4: for every requested count `n` (the per-coordinate unit-uniform draws in
`[0,1]` being explicit inputs), sampling the prior returns a batch of exactly
`n` θ vectors, each of dimension 3, each coordinate the uniform transport
`-2 + 4·u` of its unit draw and hence lying in `[-2, 2]`. -/
theorem prior_sample_count_dim_uniform (n : Nat) (u : Nat → Nat → ℚ)
    (hu : ∀ i j, 0 ≤ u i j ∧ u i j ≤ 1) :
    (prior.sample n u).length = n ∧
    ∀ i, i < n →
      ((prior.sample n u).getD i []).length = 3 ∧
      ∀ j, j < 3 →
        ((prior.sample n u).getD i []).getD j 0 = -2 + 4 * u i j ∧
        -2 ≤ ((prior.sample n u).getD i []).getD j 0 ∧
        ((prior.sample n u).getD i []).getD j 0 ≤ 2 := by
  refine ⟨sample_length prior n u, fun i hi => ?_⟩
  rw [sample_getD prior n u i hi]
  refine ⟨by simpa [prior, num_dim] using sampleOne_length prior (u i),
    fun j hj => ?_⟩
  have hg := prior_sampleOne_getD (u i) j (by simpa [num_dim] using hj)
  refine ⟨hg, ?_, ?_⟩ <;> rw [hg] <;> rcases hu i j with ⟨h0, h1⟩ <;> linarith

/-- Witness for C4 at n = 2, all unit draws 3/4, row 1, coordinate 2. -/
theorem prior_sample_count_dim_uniform_witness :
    (prior.sample 2 (fun _ _ => (3/4 : ℚ))).length = 2 ∧
    ((prior.sample 2 (fun _ _ => (3/4 : ℚ))).getD 1 []).getD 2 0
      = -2 + 4 * (3/4 : ℚ) :=
  ⟨(prior_sample_count_dim_uniform 2 (fun _ _ => (3/4 : ℚ))
      (fun _ _ => by norm_num)).1,
   (((prior_sample_count_dim_uniform 2 (fun _ _ => (3/4 : ℚ))
      (fun _ _ => by norm_num)).2 1 (by norm_num)).2 2 (by norm_num)).1⟩

/-- C3: for every batch of θ vectors and matching batch of noise draws
(`randn_like` always matches the input shape), the simulator returns a batch
with the same batch size and, row by row, the same per-vector dimensionality
as the input batch. -/
theorem simulatorBatch_preserves_shape (thetas epss : List (List ℚ))
    (hlen : epss.length = thetas.length)
    (hrow : ∀ i, i < thetas.length →
      (epss.getD i []).length = (thetas.getD i []).length) :
    (simulatorBatch thetas epss).length = thetas.length ∧
    ∀ i, i < thetas.length →
      ((simulatorBatch thetas epss).getD i []).length
        = (thetas.getD i []).length := by
  constructor
  · simp [simulatorBatch, List.length_zipWith, hlen]
  · intro i hi
    rw [simulatorBatch, getD_zipWith simulator thetas epss [] [] [] i hi (by omega)]
    exact simulator_length _ _ (hrow i hi)

/-- Witness for C3 on the ragged batch [[1,2],[3]] with noise [[0,0],[1]]. -/
theorem simulatorBatch_preserves_shape_witness :
    (simulatorBatch [[(1:ℚ), 2], [3]] [[0, 0], [1]]).length = 2 ∧
    ((simulatorBatch [[(1:ℚ), 2], [3]] [[0, 0], [1]]).getD 0 []).length = 2 := by
  have h := simulatorBatch_preserves_shape [[(1:ℚ), 2], [3]] [[0, 0], [1]]
    (by decide) (fun i hi => by
      have h2 : i < 2 := by simpa using hi
      interval_cases i <;> rfl)
  exact ⟨h.1, by simpa using h.2 0 (by norm_num)⟩

/-- C10: with the noise draw held fixed, the simulator is translation
equivariant: shifting θ by δ shifts every output coordinate by exactly the
corresponding coordinate of δ, and output minus θ equals 1 + 0.1·ε
independently of θ. -/
theorem simulator_translation_equivariant (theta delta eps : List ℚ) (i : Nat)
    (hd : delta.length = theta.length) (he : eps.length = theta.length)
    (hi : i < theta.length) :
    (simulator (addT theta delta) eps).getD i 0
      - (simulator theta eps).getD i 0 = delta.getD i 0 ∧
    (simulator theta eps).getD i 0 - theta.getD i 0
      = 1 + (1/10) * eps.getD i 0 := by
  have hlen : (addT theta delta).length = theta.length := by
    simp [addT, List.length_zipWith, hd]
  have h1 := simulator_getD (addT theta delta) eps i
    (by rw [hlen]; exact he) (by omega)
  have h2 := simulator_getD theta eps i he hi
  have h3 := addT_getD theta delta i hi (by omega)
  constructor
  · rw [h1, h2, h3]; ring
  · rw [h2]; ring

/-- Witness for C10 at θ = [1], δ = [2], ε = [5]. -/
theorem simulator_translation_equivariant_witness :
    (simulator (addT [1] [2]) [5]).getD 0 0
      - (simulator [(1:ℚ)] [5]).getD 0 0 = ([(2:ℚ)]).getD 0 0 ∧
    (simulator [(1:ℚ)] [5]).getD 0 0 - ([(1:ℚ)]).getD 0 0
      = 1 + (1/10) * ([(5:ℚ)]).getD 0 0 :=
  simulator_translation_equivariant [1] [2] [5] 0 (by decide) (by decide)
    (by decide)

/-- C8: for θ in the prior box [-2,2]^3, whenever every noise coordinate is
bounded by c in absolute value, every coordinate of the simulator output
differs from the corresponding coordinate of θ + 1 by at most 0.1·c. -/
theorem simulator_output_bounded_near_theta_plus_one
    (theta eps : List ℚ) (c : ℚ) (i : Nat)
    (hdim : theta.length = 3) (_hbox : ∀ t ∈ theta, -2 ≤ t ∧ t ≤ 2)
    (he : eps.length = theta.length) (hc : ∀ e ∈ eps, |e| ≤ c)
    (hi : i < theta.length) :
    |(simulator theta eps).getD i 0 - (theta.getD i 0 + 1)| ≤ (1/10) * c := by
  have hgi := simulator_getD theta eps i he hi
  have hie : i < eps.length := by omega
  have hmem : eps.getD i 0 ∈ eps := by
    rw [List.getD_eq_getElem _ _ hie]; exact List.getElem_mem hie
  have hb := hc _ hmem
  rw [hgi]
  have hsub : theta.getD i 0 + 1 + eps.getD i 0 * (1/10) - (theta.getD i 0 + 1)
      = eps.getD i 0 * (1/10) := by ring
  rw [hsub, abs_mul, abs_of_pos (by norm_num : (0:ℚ) < 1/10)]
  have := mul_le_mul_of_nonneg_right hb (by norm_num : (0:ℚ) ≤ 1/10)
  linarith

/-- C5: the simulator's output is a function of θ and the generator seed
only — two runs on the same θ from the same seed coincide — while without
reseeding, consecutive calls can differ (shown at θ = [0], seed 0, where the
second call starts from the advanced generator state and outputs a different
value). -/
theorem simulatorRun_reproducible_given_seed :
    (∀ theta1 theta2 : List ℚ, ∀ s1 s2 : Nat, theta1 = theta2 → s1 = s2 →
      (simulatorRun theta1 s1).1 = (simulatorRun theta2 s2).1) ∧
    (simulatorRun [0] 0).1 ≠ (simulatorRun [0] ((simulatorRun [0] 0).2)).1 := by
  constructor
  · intro theta1 theta2 s1 s2 ht hs; rw [ht, hs]
  · norm_num [simulatorRun_single, lcgNext, normalDraw]

/-- Witness for C5: the reproducibility half applied at θ = [1/2], seed 7. -/
theorem simulatorRun_reproducible_given_seed_witness :
    (simulatorRun [(1:ℚ)/2] 7).1 = (simulatorRun [(1:ℚ)/2] 7).1 :=
  simulatorRun_reproducible_given_seed.1 [(1:ℚ)/2] [(1:ℚ)/2] 7 7 rfl rfl

/-- C6: the consistency check is the only validation: when it fails the run
halts immediately with that error and no training data is produced, and when
it passes nothing else fails — the pipeline returns the training set. -/
theorem check_sbi_inputs_gates_pipeline (probeSim : List ℚ → List ℚ)
    (p : BoxUniform) (numSim : Nat) (u eps : Nat → Nat → ℚ) :
    (∀ msg, check_sbi_inputs probeSim p = Except.error msg →
      pipeline probeSim p numSim u eps = Except.error msg) ∧
    (check_sbi_inputs probeSim p = Except.ok () →
      pipeline probeSim p numSim u eps
        = Except.ok (trainingSet p numSim u eps)) := by
  constructor
  · intro msg h; rw [pipeline, h]
  · intro h; rw [pipeline, h]

/-- Witness for C6: a probe simulator returning the wrong shape makes the
pipeline halt with the check's error before building any training pair. -/
theorem check_sbi_inputs_gates_pipeline_witness :
    pipeline (fun _ => []) prior 2000 (fun _ _ => 1/2) (fun _ _ => 0)
      = Except.error mismatchMsg :=
  (check_sbi_inputs_gates_pipeline (fun _ => []) prior 2000 (fun _ _ => 1/2)
    (fun _ _ => 0)).1 mismatchMsg rfl

/-- C7: with `num_simulations = 2000` the training set is exactly 2000 ordered
(θ, x) pairs in which θ_i is the i-th prior draw and x_i is the simulator
applied to θ_i with the i-th noise row; as a pure value it is immutable after
creation. -/
theorem trainingSet_2000_pairs_from_prior_and_simulator
    (u eps : Nat → Nat → ℚ) :
    (trainingSet prior 2000 u eps).length = 2000 ∧
    ∀ i, i < 2000 →
      (trainingSet prior 2000 u eps).getD i ([], [])
        = (prior.sampleOne (u i),
           simulator (prior.sampleOne (u i)) (epsRow eps i 3)) := by
  have h1 : (simulate_for_sbi prior 2000 u eps).1.length = 2000 := by
    simp [simulate_for_sbi, sample_length]
  have h2 : (simulate_for_sbi prior 2000 u eps).2.length = 2000 := by
    simp [simulate_for_sbi]
  constructor
  · simp [trainingSet, List.length_zip, h1, h2]
  · intro i hi
    have hlen3 : (prior.sampleOne (u i)).length = 3 := by
      simpa [prior, num_dim] using sampleOne_length prior (u i)
    have hfst : (simulate_for_sbi prior 2000 u eps).1.getD i []
        = prior.sampleOne (u i) := by
      simpa [simulate_for_sbi] using sample_getD prior 2000 u i hi
    have hsnd : (simulate_for_sbi prior 2000 u eps).2.getD i []
        = simulator (prior.sampleOne (u i)) (epsRow eps i 3) := by
      show ((List.range 2000).map (fun k =>
          simulator ((prior.sample 2000 u).getD k [])
            (epsRow eps k ((prior.sample 2000 u).getD k []).length))).getD i []
        = simulator (prior.sampleOne (u i)) (epsRow eps i 3)
      rw [getD_range_map _ [] 2000 i hi, sample_getD prior 2000 u i hi, hlen3]
    rw [trainingSet, getD_zip _ _ [] [] i (by rw [h1]; exact hi)
      (by rw [h2]; exact hi), hfst, hsnd]

/-- Witness for C7: the first pair of the training set under concrete draws. -/
theorem trainingSet_2000_pairs_from_prior_and_simulator_witness :
    (trainingSet prior 2000 (fun _ _ => 1/2) (fun _ _ => 0)).getD 0 ([], [])
      = (prior.sampleOne (fun _ => (1/2 : ℚ)),
         simulator (prior.sampleOne (fun _ => (1/2 : ℚ)))
           (epsRow (fun _ _ => 0) 0 3)) :=
  (trainingSet_2000_pairs_from_prior_and_simulator (fun _ _ => 1/2)
    (fun _ _ => 0)).2 0 (by norm_num)

/-- C2: sampling conditioned on a first observation leaves the training data
and the fitted posterior unchanged (only the generator state advances), and
the very same posterior object then answers a second observation, with the
training data still unchanged — no regeneration and no retraining. -/
theorem posterior_sampling_is_amortized (st : SBIState) (n1 n2 : Nat)
    (x1 x2 : List ℚ) :
    (posteriorSampleCall st n1 x1).2.data = st.data ∧
    (posteriorSampleCall st n1 x1).2.posterior = st.posterior ∧
    (posteriorSampleCall (posteriorSampleCall st n1 x1).2 n2 x2).1
      = st.posterior.sampleFun x2 n2 (posteriorSampleCall st n1 x1).2.rng ∧
    (posteriorSampleCall (posteriorSampleCall st n1 x1).2 n2 x2).2.data
      = st.data := by
  refine ⟨?_, ?_, ?_, ?_⟩ <;> simp [posteriorSampleCall]

/-- C9: for the observation [1,1,1], the exact posterior over the prior box
[-2,2]^3 has its squared-distance score nonnegative and vanishing exactly at
θ = [0,0,0] — the density is uniquely maximized there, so posterior mass
concentrates near the origin. -/
theorem posterior_concentrates_at_origin (theta : List ℚ)
    (hlen : theta.length = 3) (hbox : ∀ t ∈ theta, -2 ≤ t ∧ t ≤ 2) :
    0 ≤ posteriorScore [1, 1, 1] theta ∧
    (posteriorScore [1, 1, 1] theta = 0 ↔ theta = [0, 0, 0]) := by
  obtain ⟨a, b, c, rfl⟩ : ∃ a b c, theta = [a, b, c] := by
    rcases theta with _ | ⟨a, _ | ⟨b, _ | ⟨c, _ | rest⟩⟩⟩ <;>
      first
        | (exact ⟨_, _, _, rfl⟩)
        | (exfalso; simp at hlen)
  have hs : posteriorScore [1, 1, 1] [a, b, c] = a ^ 2 + b ^ 2 + c ^ 2 := by
    simp [posteriorScore, simulator, addT, addScalar, mulScalar, List.replicate]
    ring
  refine ⟨by rw [hs]; positivity, ?_⟩
  rw [hs]
  constructor
  · intro h
    have ha : a ^ 2 = 0 :=
      le_antisymm (by nlinarith [sq_nonneg b, sq_nonneg c]) (sq_nonneg a)
    have hb2 : b ^ 2 = 0 :=
      le_antisymm (by nlinarith [sq_nonneg a, sq_nonneg c]) (sq_nonneg b)
    have hc2 : c ^ 2 = 0 :=
      le_antisymm (by nlinarith [sq_nonneg a, sq_nonneg b]) (sq_nonneg c)
    have ha0 : a = 0 := by
      have := pow_eq_zero_iff (two_ne_zero) |>.mp ha
      simpa using this
    have hb0 : b = 0 := by
      have := pow_eq_zero_iff (two_ne_zero) |>.mp hb2
      simpa using this
    have hc0 : c = 0 := by
      have := pow_eq_zero_iff (two_ne_zero) |>.mp hc2
      simpa using this
    simp [ha0, hb0, hc0]
  · intro h
    obtain ⟨rfl, rfl, rfl⟩ : a = 0 ∧ b = 0 ∧ c = 0 := by simpa using h
    norm_num

/-- Witness for C9 at θ = [1/2, 0, -1]. -/
theorem posterior_concentrates_at_origin_witness :
    0 ≤ posteriorScore [1, 1, 1] [(1:ℚ)/2, 0, -1] ∧
    (posteriorScore [1, 1, 1] [(1:ℚ)/2, 0, -1] = 0
      ↔ ([(1:ℚ)/2, 0, -1] : List ℚ) = [0, 0, 0]) :=
  posterior_concentrates_at_origin [1/2, 0, -1] (by decide)
    (by intro t ht; fin_cases ht <;> norm_num)

/-- Witness for C8 at θ = [0,0,0], ε = [1,-2,1], c = 2, coordinate 1. -/
theorem simulator_output_bounded_near_theta_plus_one_witness :
    |(simulator [0, 0, 0] [1, -2, 1]).getD 1 0 - (([0, 0, (0:ℚ)]).getD 1 0 + 1)|
      ≤ (1/10) * 2 :=
  simulator_output_bounded_near_theta_plus_one [0, 0, 0] [1, -2, 1] 2 1
    (by decide) (by decide) (by decide) (by decide) (by decide)

end GaussianAmortized
